import Mathlib

/-!
Shallow embedding of the request-descriptor parsers and transform pipeline of
`iiifmagestar` (files `src/iiifmagestar/imageserver.py` and
`src/iiifmagestar/main.py`).

Conventions of the embedding:

* Python exceptions are modelled with `Except PyErr`: `ValueError` (raised by
  `int(...)`, `float(...)` and tuple unpacking) and `ZeroDivisionError`
  (raised by `/` with zero divisor).
* Python `float(...)` results are exact decimal values `PyF` with value
  `mant / 10 ^ exp`; the tokens the source feeds to `float` are decimal
  literals (optional sign, digits, optional fraction part), which this
  representation captures exactly.
* Python `int(x)` applied to a true-division result truncates toward zero;
  on exact rationals `a / b` with `b > 0` this is `Int.tdiv a b`.
* Python `%` on floats follows the sign of the divisor; with a positive
  divisor and an exact decimal operand this is `Int.fmod` on mantissas.
* Rasters are `Img α`: a width, a height and a pixel function; the external
  raster operations `cv2.flip`, `cv2.rotate` are index permutations
  (`flipH`, `rot90cw`, `rot180`, `rot90ccw`), and `cv2.warpAffine` for
  arbitrary angles is an uninterpreted collaborator passed as `warpFn`.
* Filesystem probing (`Path.exists`) is an uninterpreted oracle
  `String → Bool` over candidate file names.
-/

inductive PyErr : Type where
  | valueError : PyErr
  | zeroDivisionError : PyErr
  deriving DecidableEq, Repr

/-- `10 ^ e` as an integer, the denominator scale of a decimal literal. -/
def pow10 (e : Nat) : Int := ((10 ^ e : Nat) : Int)

/-- Nonempty all-digit character list, Python `str.isdigit` on ASCII. -/
def digitsOnly (l : List Char) : Bool := !l.isEmpty && l.all (fun c => c.isDigit)

/-- Decimal value of a digit list. -/
def digitsVal (l : List Char) : Nat := l.foldl (fun a c => a * 10 + (c.toNat - 48)) 0

/-- Python `str.split(sep)` for a one-character separator: splits at every
occurrence, keeping empty pieces; `"".split(sep) == [""]`. -/
def splitL (sep : Char) : List Char → List (List Char)
  | [] => [[]]
  | c :: rest =>
    if c = sep then [] :: splitL sep rest
    else
      match splitL sep rest with
      | h :: t => (c :: h) :: t
      | [] => [[c]]

/-- Python `int(s)` on an optionally signed digit string; `none` models the
`ValueError` raised on any other input. -/
def pyIntL : List Char → Option Int
  | '-' :: r => if digitsOnly r then some (-(digitsVal r : Int)) else none
  | '+' :: r => if digitsOnly r then some ((digitsVal r : Int)) else none
  | r => if digitsOnly r then some ((digitsVal r : Int)) else none

/-- Result of Python `float(s)` on a decimal literal: the exact value
`mant / 10 ^ exp`. -/
structure PyF : Type where
  mant : Int
  exp : Nat
  deriving DecidableEq, Repr

/-- Integer of sign `neg` and magnitude `n`. -/
def intSign (neg : Bool) (n : Nat) : Int := if neg then -(n : Int) else (n : Int)

/-- Python `float(s)` on optionally signed decimal literals (digits with an
optional fraction part, at least one digit); `none` models `ValueError`. -/
def pyFloatL : List Char → Option PyF
  | l =>
    let p : Bool × List Char :=
      match l with
      | '-' :: r => (true, r)
      | '+' :: r => (false, r)
      | r => (false, r)
    match splitL '.' p.2 with
    | [ip] => if digitsOnly ip then some ⟨intSign p.1 (digitsVal ip), 0⟩ else none
    | [ip, fp] =>
      if ip.all (fun c => c.isDigit) && fp.all (fun c => c.isDigit)
          && (!ip.isEmpty || !fp.isEmpty) then
        some ⟨intSign p.1 (digitsVal ip * 10 ^ fp.length + digitsVal fp), fp.length⟩
      else none
    | _ => none

/-- Python `s.startswith(p)` (string level). -/
def pyStartsWith (p s : String) : Bool := List.isPrefixOf p.data s.data

/-- Python `p in s` substring containment. -/
def containsSub (pat : List Char) : List Char → Bool
  | [] => pat.isEmpty
  | c :: rest => pat.isPrefixOf (c :: rest) || containsSub pat rest

/-- Python `sub in s` (string level). -/
def pyContainsSub (sub s : String) : Bool := containsSub sub.data s.data

/-- Python `s.endswith(suf)` (string level). -/
def pyEndsWith (suf s : String) : Bool := List.isSuffixOf suf.data s.data

/-- `int(dim * pct / 100)` from the `pct:` branches of `parse_region` and
`parse_size`: exact value `dim * (f.mant / 10 ^ f.exp) / 100`, truncated
toward zero as Python `int` does. -/
def pctScale (dim : Nat) (f : PyF) : Int := Int.tdiv ((dim : Int) * f.mant) (100 * pow10 f.exp)

/-- `IIIFImageServer.parse_region`, lines 58-70 of `imageserver.py`: the
absolute-pixel branch (four comma-separated integers, clamped to the image)
followed by the default-to-full fallback. -/
def absRegion (region : String) (W H : Nat) : Except PyErr (Int × Int × Int × Int) :=
  match splitL ',' region.data with
  | [a, b, c, d] =>
    match pyIntL a, pyIntL b, pyIntL c, pyIntL d with
    | some x, some y, some w, some h =>
      let x' := max 0 (min x (W : Int))
      let y' := max 0 (min y (H : Int))
      .ok (x', y', min w ((W : Int) - x'), min h ((H : Int) - y'))
    | _, _, _, _ => .error .valueError
  | _ => .ok (0, 0, (W : Int), (H : Int))

/-- `IIIFImageServer.parse_region` (`imageserver.py` lines 29-70): token
branches `"full"`, `"square"`, `"pct:x,y,w,h"`, absolute `x,y,w,h`, and the
default-to-full fallback, in source order. -/
def parse_region (region : String) (W H : Nat) : Except PyErr (Int × Int × Int × Int) :=
  if region = "full" then .ok (0, 0, (W : Int), (H : Int))
  else if region = "square" then
    if W = H then .ok (0, 0, (W : Int), (H : Int))
    else if H < W then .ok ((((W - H) / 2 : Nat) : Int), 0, (H : Int), (H : Int))
    else .ok (0, (((H - W) / 2 : Nat) : Int), (W : Int), (W : Int))
  else if pyStartsWith "pct:" region then
    match splitL ',' (region.data.drop 4) with
    | [a, b, c, d] =>
      match pyFloatL a, pyFloatL b, pyFloatL c, pyFloatL d with
      | some fa, some fb, some fc, some fd =>
        .ok (pctScale W fa, pctScale H fb, pctScale W fc, pctScale H fd)
      | _, _, _, _ => .error .valueError
    | _ => absRegion region W H
  else absRegion region W H

/-- `parse_size` lines 122-129: the trailing `size.isdigit()` branch
(bare integer means width, height auto) and the default fallback. -/
def isdigitTail (cs : List Char) (W H : Nat) : Except PyErr (Int × Int) :=
  if digitsOnly cs then
    let w : Int := (digitsVal cs : Int)
    if W = 0 then .error .zeroDivisionError
    else .ok (w, max 1 (Int.tdiv ((H : Int) * w) (W : Int)))
  else .ok ((W : Int), (H : Int))

/-- `parse_size` lines 109-129: the `!w,h` best-fit branch and what follows
it. Note the branch reassigns `size` to the marker-stripped token before the
`isdigit` check. `scale = min(max_w/W, max_h/H)` is compared by
cross-multiplication with the positive denominators `W`, `H`. -/
def sizeBang (cs : List Char) (W H : Nat) : Except PyErr (Int × Int) :=
  if cs.head? = some '!' then
    if (cs.drop 1).contains ',' then
      match splitL ',' (cs.drop 1) with
      | [a, b] =>
        match pyIntL a, pyIntL b with
        | some mw, some mh =>
          if W = 0 then .error .zeroDivisionError
          else if H = 0 then .error .zeroDivisionError
          else if mw * (H : Int) ≤ mh * (W : Int) then
            .ok (max 1 mw, max 1 (Int.tdiv ((H : Int) * mw) (W : Int)))
          else
            .ok (max 1 (Int.tdiv ((W : Int) * mh) (H : Int)), max 1 mh)
        | _, _ => .error .valueError
      | _ => .error .valueError
    else isdigitTail (cs.drop 1) W H
  else isdigitTail cs W H

/-- `parse_size` lines 82-129: everything after the `"max"` and `"^"`
checks — `pct:` scaling, the comma branches (width-only, height-only, exact
`w,h`, with the both-empty token `","` falling through), then `sizeBang`. -/
def parse_sizeRest (cs : List Char) (W H : Nat) : Except PyErr (Int × Int) :=
  if List.isPrefixOf "pct:".data cs then
    match pyFloatL (cs.drop 4) with
    | none => .error .valueError
    | some f => .ok (max 1 (pctScale W f), max 1 (pctScale H f))
  else if cs.contains ',' then
    match splitL ',' cs with
    | [ws, hs] =>
      if ws ≠ [] ∧ hs = [] then
        match pyIntL ws with
        | none => .error .valueError
        | some w =>
          if W = 0 then .error .zeroDivisionError
          else .ok (w, max 1 (Int.tdiv ((H : Int) * w) (W : Int)))
      else if hs ≠ [] ∧ ws = [] then
        match pyIntL hs with
        | none => .error .valueError
        | some h =>
          if H = 0 then .error .zeroDivisionError
          else .ok (max 1 (Int.tdiv ((W : Int) * h) (H : Int)), h)
      else if ws ≠ [] ∧ hs ≠ [] then
        match pyIntL ws, pyIntL hs with
        | some w, some h => .ok (w, h)
        | _, _ => .error .valueError
      else sizeBang cs W H
    | _ => .error .valueError
  else sizeBang cs W H

/-- `IIIFImageServer.parse_size` (`imageserver.py` lines 72-129) on the
token's characters: `"max"`, then the self-recursive `"^"`-stripping branch,
then `parse_sizeRest`. The recursion strips exactly one leading character. -/
def parse_sizeL : List Char → Nat → Nat → Except PyErr (Int × Int)
  | [], W, H => parse_sizeRest [] W H
  | c :: rest, W, H =>
    if c :: rest = "max".data then .ok ((W : Int), (H : Int))
    else if c = '^' then parse_sizeL rest W H
    else parse_sizeRest (c :: rest) W H

/-- `IIIFImageServer.parse_size` at string level. -/
def parse_size (size : String) (W H : Nat) : Except PyErr (Int × Int) :=
  parse_sizeL size.data W H

/-- Fuel-indexed variant of `parse_sizeL`, recursing exactly where the
source does and returning `none` when the fuel runs out. -/
def parse_sizeFL : Nat → List Char → Nat → Nat → Option (Except PyErr (Int × Int))
  | 0, _, _, _ => none
  | _ + 1, [], W, H => some (parse_sizeRest [] W H)
  | fuel + 1, c :: rest, W, H =>
    if c :: rest = "max".data then some (.ok ((W : Int), (H : Int)))
    else if c = '^' then parse_sizeFL fuel rest W H
    else some (parse_sizeRest (c :: rest) W H)

/-- Size tokens (with `"max"` and leading `"^"` markers already handled)
whose evaluation can take a branch of `parse_sizeRest` that returns an
explicitly given dimension verbatim: a comma form, or a bare/`!`-prefixed
digit string. These are exactly the branches that do not clamp both
components to a minimum of 1. -/
def explicitRest (cs : List Char) : Bool :=
  if List.isPrefixOf "pct:".data cs then false
  else if cs.contains ',' then true
  else if cs.head? = some '!' then digitsOnly (cs.drop 1)
  else digitsOnly cs

/-- Size tokens whose evaluation can reach a `parse_size` branch returning
an explicitly given dimension verbatim, following the token structure of
`parse_sizeL` (`"max"`, `"^"`-stripping recursion, then `explicitRest`). -/
def explicitSizeL : List Char → Bool
  | [] => false
  | c :: rest =>
    if c :: rest = "max".data then false
    else if c = '^' then explicitSizeL rest
    else explicitRest (c :: rest)

/-- A raster: width, height and a pixel at each (row, column) position. -/
structure Img (α : Type) : Type where
  w : Nat
  h : Nat
  px : Fin h → Fin w → α

/-- `cv2.flip(image, 1)`: horizontal mirror, each row reversed. -/
def flipH {α : Type} (m : Img α) : Img α := ⟨m.w, m.h, fun i j => m.px i j.rev⟩

/-- `cv2.rotate(image, cv2.ROTATE_90_CLOCKWISE)`: pure index permutation
`out[i][j] = in[h-1-j][i]`, swapping width and height. -/
def rot90cw {α : Type} (m : Img α) : Img α := ⟨m.h, m.w, fun i j => m.px j.rev i⟩

/-- `cv2.rotate(image, cv2.ROTATE_180)`. -/
def rot180 {α : Type} (m : Img α) : Img α := ⟨m.w, m.h, fun i j => m.px i.rev j.rev⟩

/-- `cv2.rotate(image, cv2.ROTATE_90_COUNTERCLOCKWISE)`:
`out[i][j] = in[j][w-1-i]`. -/
def rot90ccw {α : Type} (m : Img α) : Img α := ⟨m.h, m.w, fun i j => m.px j i.rev⟩

/-- `apply_rotation` lines 143-180: the `try` block. `float(rotation)`
failure (`pyFloatL = none`) is caught by `except ValueError: pass`, keeping
the current (possibly mirrored) raster. An angle value `mant / 10 ^ exp` is
a multiple of 90 iff `90 * 10 ^ exp` divides `mant`; `angle % 360` (Python
float `%`, sign of the positive divisor) is compared against 90/180/270 on
the same scale. Arbitrary angles go to the external `warpFn` collaborator
(`cv2.getRotationMatrix2D` + `cv2.warpAffine`). -/
def rotCore {α : Type} (warpFn : PyF → Img α → Img α) (image2 : Img α)
    (rotChars : List Char) : Except PyErr (Img α) :=
  match pyFloatL rotChars with
  | none => .ok image2
  | some f =>
    if f.mant ≠ 0 then
      if f.mant % (90 * pow10 f.exp) = 0 then
        let r := Int.fmod f.mant (360 * pow10 f.exp)
        if r = 90 * pow10 f.exp then .ok (rot90cw image2)
        else if r = 180 * pow10 f.exp then .ok (rot180 image2)
        else if r = 270 * pow10 f.exp then .ok (rot90ccw image2)
        else .ok image2
      else .ok (warpFn f image2)
    else .ok image2

/-- `IIIFImageServer.apply_rotation` (`imageserver.py` lines 131-180):
`"0"` short-circuits; a leading `"!"` is stripped and applies `cv2.flip`
before any rotation; then `rotCore` runs the `try` block. -/
def apply_rotation {α : Type} (warpFn : PyF → Img α → Img α) (image : Img α)
    (rotation : String) : Except PyErr (Img α) :=
  if rotation = "0" then .ok image
  else
    match rotation.data with
    | '!' :: rest => rotCore warpFn (flipH image) rest
    | cs => rotCore warpFn image cs

/-- Resolution of one numpy basic-slice endpoint on an axis of length `n`:
negative indices wrap once, then clamp to `[0, n]`. -/
def npIdx (n : Nat) (i : Int) : Int := max 0 (min (if i < 0 then i + (n : Int) else i) (n : Int))

/-- Length of `a[start:stop]` on an axis of length `n`. -/
def npSliceLen (n : Nat) (start stop : Int) : Nat := (npIdx n stop - npIdx n start).toNat

/-- The crop stage of `get_image` (`main.py` lines 98-100): the slice
`image[y:y+h, x:x+w]` is applied only when `w > 0 and h > 0`; otherwise the
raster (here: its width x height) is carried forward unchanged. -/
def cropDims (W H : Nat) (x y w h : Int) : Nat × Nat :=
  if 0 < w ∧ 0 < h then (npSliceLen W x (x + w), npSliceLen H y (y + h)) else (W, H)

/-- The region + crop + size stages of `get_image` (`main.py` lines
95-106): parse the region against the source dimensions, crop (guarded),
parse the size against the cropped dimensions, and return the
`(new_width, new_height)` argument passed to `cv2.resize` — `none` when the
`new_width != current_width or new_height != current_height` guard skips
the resize call. -/
def scaleCall (region size : String) (W H : Nat) : Except PyErr (Option (Int × Int)) := do
  let (x, y, w, h) ← parse_region region W H
  let (cw, ch) := cropDims W H x y w h
  let (nw, nh) ← parse_size size cw ch
  pure (if nw ≠ (cw : Int) ∨ nh ≠ (ch : Int) then some (nw, nh) else none)

/-- The extension probe order of `find_image_file` (`imageserver.py` line 16). -/
def acceptedFormats : List String :=
  [".jpg", ".jpeg", ".png", ".tiff", ".tif", ".webp", ".jp2", ".pdf"]

/-- `IIIFImageServer.find_image_file` (`imageserver.py` lines 11-27), with
the filesystem existence check abstracted as the oracle `fileExists` over
candidate file names: path-delimiter rejection, the exact-name check when
the identifier already ends in an accepted extension, then the probe loop
over `acceptedFormats` in order. -/
def find_image_file (fileExists : String → Bool) (identifier : String) : Option String :=
  if pyContainsSub ".." identifier || pyContainsSub "/" identifier
      || pyContainsSub "\\" identifier then
    none
  else if acceptedFormats.any (fun ext => pyEndsWith ext identifier)
      && fileExists identifier then
    some identifier
  else
    (acceptedFormats.map (fun ext => identifier ++ ext)).find? fileExists

/-- C1: the claim states the `!maxW,maxH` best-fit size grammar, with
`parse_size("!100,50", 200, 100) = (100, 50)` and
`parse_size("!100,50", 200, 200) = (50, 50)`. The code instead raises
`ValueError`: the `',' in size` branch (line 90) runs before the `"!"`
best-fit branch (line 110) and calls `int("!100")`, so the best-fit branch
is unreachable for every `!w,h` token — contradicting the code's own
comment "Handle !w,h (best fit)". This theorem evaluates the code at the
claim's two inputs. -/
theorem claim1_bestfit_token_raises :
    parse_size "!100,50" 200 100 = .error .valueError
    ∧ parse_size "!100,50" 200 200 = .error .valueError := ⟨rfl, rfl⟩

/-- C2 counterexample: the claim says the three parsers never raise for any
token. But `parse_region` on the four-comma token `"a,b,c,d"` (with positive
source dimensions 100 x 100) reaches `map(int, values)` and raises
`ValueError`. -/
theorem claim2_cex_region_int_fields_raise :
    parse_region "a,b,c,d" 100 100 = .error .valueError := rfl

/-- C2, amended: `apply_rotation` is total for every rotation token (the
`float` parse failure is caught by `except ValueError`, falling back to the
possibly mirrored raster); `parse_region` and `parse_size` fall back (to the
full region / unchanged size) only for tokens that do not structurally match
a numeric branch — tokens that do match one but carry non-numeric fields
raise `ValueError` (e.g. region `"a,b,c,d"`, size `"a,b"`). -/
theorem claim2_rotation_total_parsers_partial :
    (∀ (α : Type) (warpFn : PyF → Img α → Img α) (m : Img α) (rotation : String),
      ∃ out, apply_rotation warpFn m rotation = .ok out)
    ∧ parse_region "a,b,c,d" 100 100 = .error .valueError
    ∧ parse_size "a,b" 10 10 = .error .valueError
    ∧ parse_region "garbage" 7 5 = .ok (0, 0, 7, 5)
    ∧ parse_size "garbage" 7 5 = .ok (7, 5) := by
  refine ⟨?_, rfl, rfl, rfl, rfl⟩
  intro α warpFn m rotation
  have core : ∀ (img2 : Img α) (cs : List Char), ∃ out, rotCore warpFn img2 cs = .ok out := by
    intro img2 cs
    unfold rotCore
    cases h : pyFloatL cs with
    | none => exact ⟨img2, rfl⟩
    | some f =>
      dsimp only
      split_ifs <;> exact ⟨_, rfl⟩
  unfold apply_rotation
  split
  · exact ⟨m, rfl⟩
  · split
    · exact core _ _
    · exact core _ _

/-- C3 counterexample: the claim says every `parse_size` result has width
and height at least 1, but the exact-size token `"0,0"` returns `(0, 0)`
unclamped. -/
theorem claim3_cex_size_zero :
    parse_size "0,0" 100 100 = .ok (0, 0) ∧ ¬(1 ≤ (0 : Int)) := ⟨rfl, by decide⟩

/-- C4 counterexample: the claim says the scale stage is never invoked with
a target width or height of 0. For region `"full"` and size `"0,0"` on a
100 x 100 source, `get_image` calls `cv2.resize` with target `(0, 0)`
(the `new_width != current_width` guard only skips the no-op case). -/
theorem claim4_cex_resize_called_zero :
    scaleCall "full" "0,0" 100 100 = .ok (some (0, 0)) := rfl

/-- C4, amended: the crop transition is skipped (the raster's dimensions
carried forward unchanged) exactly when the parsed region is degenerate
(`w <= 0` or `h <= 0`); the scale transition has no such degeneracy guard —
it is invoked whenever the parsed target differs from the current
dimensions, including a zero target such as size `"0,0"`. -/
theorem claim4_crop_guard_scale_unguarded :
    (∀ (W H : Nat) (x y w h : Int), ¬(0 < w ∧ 0 < h) → cropDims W H x y w h = (W, H))
    ∧ scaleCall "full" "0,0" 100 100 = .ok (some (0, 0)) :=
  ⟨fun W H x y w h hd => by simp [cropDims, hd], rfl⟩

/-- Witness for C4: a concrete degenerate region (w = -1) carries the
3 x 4 raster forward, and the concrete zero-size request invokes resize
with target `(0, 0)`. -/
theorem claim4_witness :
    cropDims 3 4 0 0 (-1) 2 = (3, 4) ∧ scaleCall "full" "0,0" 100 100 = .ok (some (0, 0)) :=
  ⟨claim4_crop_guard_scale_unguarded.1 3 4 0 0 (-1) 2 (by decide),
   claim4_crop_guard_scale_unguarded.2⟩

/-- C6: for positive source dimensions, `parse_region "square"` returns the
centered square of side `min W H`: offsets `(W-side)/2` on the x axis when
wider than tall, `(H-side)/2` on the y axis when taller than wide (integer
floor division), and the full extent when already square — all captured by
the single closed form below, since the off-axis Nat subtraction vanishes. -/
theorem claim6_square_region :
    ∀ (W H : Nat), 0 < W → 0 < H →
      parse_region "square" W H =
        .ok ((((W - H) / 2 : Nat) : Int), (((H - W) / 2 : Nat) : Int),
             ((min W H : Nat) : Int), ((min W H : Nat) : Int)) := by
  intro W H hW hH
  unfold parse_region
  rw [if_neg (by decide), if_pos rfl]
  split_ifs with h1 h2
  · subst h1
    simp [Nat.sub_self, min_self]
  · have hm : min W H = H := min_eq_right (Nat.le_of_lt h2)
    have hz : H - W = 0 := by omega
    simp [hm, hz]
  · have hm : min W H = W := min_eq_left (by omega)
    have hz : W - H = 0 := by omega
    simp [hm, hz]

/-- Witness for C6: a 100 x 50 source yields the centered square
`(25, 0, 50, 50)`. -/
theorem claim6_witness : parse_region "square" 100 50 = .ok (25, 0, 50, 50) :=
  claim6_square_region 100 50 (by decide) (by decide)

/-- C8: identifiers containing `".."`, `"/"` or `"\\"` resolve to not-found
for every filesystem oracle; any other identifier not ending in a recognized
extension resolves to the first candidate `identifier + ext` that exists,
probing `[.jpg, .jpeg, .png, .tiff, .tif, .webp, .jp2, .pdf]` in order
(`List.find?` over the candidates in that order), and to not-found when none
exists. -/
theorem claim8_find_image_file :
    ∀ (fileExists : String → Bool) (ident : String),
      ((pyContainsSub ".." ident || pyContainsSub "/" ident
          || pyContainsSub "\\" ident) = true →
        find_image_file fileExists ident = none)
      ∧ ((pyContainsSub ".." ident || pyContainsSub "/" ident
          || pyContainsSub "\\" ident) = false →
        acceptedFormats.any (fun ext => pyEndsWith ext ident) = false →
        find_image_file fileExists ident =
          (acceptedFormats.map (fun ext => ident ++ ext)).find? fileExists) := by
  intro fileExists ident
  constructor
  · intro hbad
    simp [find_image_file, hbad]
  · intro hgood hend
    simp [find_image_file, hgood, hend]

/-- Witness for C8: `"a..b"` is rejected no matter the filesystem, and
`"photo"` probes the candidates in order (here: none exists). -/
theorem claim8_witness :
    find_image_file (fun _ => false) "a..b" = none
    ∧ find_image_file (fun _ => false) "photo" =
        (acceptedFormats.map (fun ext => "photo" ++ ext)).find? (fun _ => false) :=
  ⟨(claim8_find_image_file (fun _ => false) "a..b").1 (by decide),
   (claim8_find_image_file (fun _ => false) "photo").2 (by decide) (by decide)⟩

/-- C9: for every raster, rotation `"0"` returns the raster unchanged
(bit-identical); `"90"` applies exactly the lossless quarter-turn index
permutation `rot90cw` (each output pixel is an input pixel, no
interpolation), swapping width and height; `"!0"` applies exactly the
horizontal flip and no rotation. -/
theorem claim9_rotation_exact_tokens :
    ∀ (α : Type) (warpFn : PyF → Img α → Img α) (m : Img α),
      apply_rotation warpFn m "0" = .ok m
      ∧ apply_rotation warpFn m "90" = .ok (rot90cw m)
      ∧ (rot90cw m).w = m.h ∧ (rot90cw m).h = m.w
      ∧ (∀ (i : Fin (rot90cw m).h) (j : Fin (rot90cw m).w),
          (rot90cw m).px i j = m.px j.rev i)
      ∧ apply_rotation warpFn m "!0" = .ok (flipH m)
      ∧ (flipH m).w = m.w ∧ (flipH m).h = m.h := by
  intro α warpFn m
  exact ⟨rfl, rfl, rfl, rfl, fun i j => rfl, rfl, rfl, rfl⟩

/-- Helper: the `isdigit` tail of `parse_size` either took the digit branch
(an explicitly given width) or returned the unchanged region size. -/
theorem isdigitTail_min_one (t : List Char) (W H : Nat) (w h : Int)
    (hW : 0 < W) (hH : 0 < H) (hp : isdigitTail t W H = .ok (w, h)) :
    (1 ≤ w ∧ 1 ≤ h) ∨ digitsOnly t = true := by
  by_cases hd : digitsOnly t = true
  · exact Or.inr hd
  · left
    unfold isdigitTail at hp
    rw [if_neg hd] at hp
    simp only [Except.ok.injEq, Prod.mk.injEq] at hp
    obtain ⟨e1, e2⟩ := hp
    omega

/-- Helper: a comma-free token has a comma-free tail. -/
theorem drop_one_no_comma (cs : List Char) (hc : cs.contains ',' = false) :
    (cs.drop 1).contains ',' = false := by
  cases cs with
  | nil => rfl
  | cons a t =>
    simp only [List.contains_cons, Bool.or_eq_false_iff] at hc
    exact hc.2

/-- Helper: on the branches after `"max"` and `"^"`, a successful
`parse_size` result has both components at least 1 unless the token shape
admits an explicitly given dimension (`explicitRest`). -/
theorem parse_sizeRest_min_one (cs : List Char) (W H : Nat) (w h : Int)
    (hW : 0 < W) (hH : 0 < H) (hp : parse_sizeRest cs W H = .ok (w, h)) :
    (1 ≤ w ∧ 1 ≤ h) ∨ explicitRest cs = true := by
  unfold parse_sizeRest at hp
  by_cases hpf : List.isPrefixOf "pct:".data cs = true
  · rw [if_pos hpf] at hp
    cases hf : pyFloatL (cs.drop 4) with
    | none => rw [hf] at hp; simp at hp
    | some f =>
      rw [hf] at hp
      left
      simp only [Except.ok.injEq, Prod.mk.injEq] at hp
      obtain ⟨e1, e2⟩ := hp
      exact ⟨e1 ▸ le_max_left 1 _, e2 ▸ le_max_left 1 _⟩
  · rw [if_neg hpf] at hp
    by_cases hcomma : cs.contains ',' = true
    · right
      unfold explicitRest
      rw [if_neg hpf, if_pos hcomma]
    · rw [if_neg hcomma] at hp
      rw [Bool.not_eq_true] at hcomma
      unfold sizeBang at hp
      by_cases hbang : cs.head? = some '!'
      · rw [if_pos hbang] at hp
        rw [if_neg (by rw [drop_one_no_comma cs hcomma]; exact Bool.false_ne_true)] at hp
        rcases isdigitTail_min_one (cs.drop 1) W H w h hW hH hp with hl | hd
        · exact Or.inl hl
        · right
          unfold explicitRest
          rw [if_neg hpf, if_neg (by rw [hcomma]; exact Bool.false_ne_true), if_pos hbang]
          exact hd
      · rw [if_neg hbang] at hp
        rcases isdigitTail_min_one cs W H w h hW hH hp with hl | hd
        · exact Or.inl hl
        · right
          unfold explicitRest
          rw [if_neg hpf, if_neg (by rw [hcomma]; exact Bool.false_ne_true), if_neg hbang]
          exact hd

/-- Helper: `parse_sizeL` results have both components at least 1 for
positive region dimensions, unless the token admits an explicitly given
dimension. -/
theorem parse_sizeL_min_one (cs : List Char) :
    ∀ (W H : Nat) (w h : Int), 0 < W → 0 < H →
      parse_sizeL cs W H = .ok (w, h) → (1 ≤ w ∧ 1 ≤ h) ∨ explicitSizeL cs = true := by
  induction cs with
  | nil =>
    intro W H w h hW hH hp
    left
    have hr : parse_sizeL [] W H = .ok ((W : Int), (H : Int)) := rfl
    rw [hr] at hp
    simp only [Except.ok.injEq, Prod.mk.injEq] at hp
    obtain ⟨e1, e2⟩ := hp
    omega
  | cons c rest ih =>
    intro W H w h hW hH hp
    rw [parse_sizeL] at hp
    by_cases hmax : c :: rest = "max".data
    · rw [if_pos hmax] at hp
      left
      simp only [Except.ok.injEq, Prod.mk.injEq] at hp
      obtain ⟨e1, e2⟩ := hp
      omega
    · rw [if_neg hmax] at hp
      by_cases hc : c = '^'
      · rw [if_pos hc] at hp
        rcases ih W H w h hW hH hp with hl | hr
        · exact Or.inl hl
        · right
          rw [explicitSizeL, if_neg hmax, if_pos hc]
          exact hr
      · rw [if_neg hc] at hp
        rcases parse_sizeRest_min_one (c :: rest) W H w h hW hH hp with hl | hr
        · exact Or.inl hl
        · right
          rw [explicitSizeL, if_neg hmax, if_neg hc]
          exact hr

/-- C3, amended: for positive region dimensions, a non-raising
`parse_size` returns width and height at least 1 unless the token
explicitly gives a dimension verbatim (exact `w,h`, width-only or
height-only comma forms, or a bare/`!`-prefixed integer token), in which
case the explicit component is returned unclamped and may be 0 or
negative. -/
theorem claim3_size_min_one_unless_explicit :
    ∀ (size : String) (W H : Nat) (w h : Int), 0 < W → 0 < H →
      parse_size size W H = .ok (w, h) →
      (1 ≤ w ∧ 1 ≤ h) ∨ explicitSizeL size.data = true := by
  intro size W H w h hW hH hp
  exact parse_sizeL_min_one size.data W H w h hW hH hp

/-- Witness for C3: the token `"pct:50"` on a 100 x 100 region yields
`(50, 50)`, landing in the both-at-least-1 disjunct. -/
theorem claim3_witness :
    (1 ≤ (50 : Int) ∧ 1 ≤ (50 : Int)) ∨ explicitSizeL "pct:50".data = true :=
  claim3_size_min_one_unless_explicit "pct:50" 100 100 50 50 (by decide) (by decide) rfl

/-- C10: `parse_size` terminates for every token and region dimensions:
its only self-recursion strips one leading `"^"` character, so running the
fuel-indexed mirror `parse_sizeFL` with fuel `length + 1` never exhausts
the fuel and agrees with the total function. -/
theorem claim10_parse_size_terminates :
    ∀ (size : String) (W H : Nat),
      parse_sizeFL (size.length + 1) size.data W H = some (parse_size size W H) := by
  have core : ∀ (cs : List Char) (fuel : Nat), cs.length < fuel → ∀ (W H : Nat),
      parse_sizeFL fuel cs W H = some (parse_sizeL cs W H) := by
    intro cs
    induction cs with
    | nil =>
      intro fuel hf W H
      cases fuel with
      | zero => omega
      | succ f => rfl
    | cons c rest ih =>
      intro fuel hf W H
      cases fuel with
      | zero => simp at hf
      | succ f =>
        rw [parse_sizeFL, parse_sizeL]
        by_cases hmax : c :: rest = "max".data
        · rw [if_pos hmax, if_pos hmax]
        · rw [if_neg hmax, if_neg hmax]
          by_cases hc : c = '^'
          · rw [if_pos hc, if_pos hc]
            exact ih f (by simp at hf; omega) W H
          · rw [if_neg hc, if_neg hc]
  intro size W H
  exact core size.data (size.length + 1) (Nat.lt_succ_self _) W H

/-- C5 counterexample: the claim says that for an absolute region with
input `x >= sourceWidth` the resulting width is 0; but with the requested
width itself negative (token `"200,0,-5,10"` on a 100 x 100 source) the
resulting width is `min(-5, 100-100) = -5`, not 0. -/
theorem claim5_cex_negative_width :
    parse_region "200,0,-5,10" 100 100 = .ok (100, 0, -5, 10) ∧ ((-5 : Int) ≠ 0) :=
  ⟨rfl, by decide⟩

/-- C5, amended: for every absolute four-integer region token (not
`pct:`-prefixed), `parse_region` clamps `x` to `[0, W]` and `y` to `[0, H]`
and returns width `min(w, W - x)` and height `min(h, H - y)`; when the
input `x >= W` the resulting width is `min(w, 0) <= 0` (0 exactly when the
requested `w` is non-negative), and the pipeline skips cropping, carrying
the source dimensions forward. -/
theorem claim5_absolute_region_clamped :
    ∀ (s : String) (W H : Nat) (a b c d : List Char) (x y w h : Int),
      0 < W → 0 < H →
      pyStartsWith "pct:" s = false →
      splitL ',' s.data = [a, b, c, d] →
      pyIntL a = some x → pyIntL b = some y → pyIntL c = some w → pyIntL d = some h →
      parse_region s W H =
        .ok (max 0 (min x (W : Int)), max 0 (min y (H : Int)),
             min w ((W : Int) - max 0 (min x (W : Int))),
             min h ((H : Int) - max 0 (min y (H : Int))))
      ∧ ((W : Int) ≤ x →
          min w ((W : Int) - max 0 (min x (W : Int))) ≤ 0
          ∧ cropDims W H (max 0 (min x (W : Int))) (max 0 (min y (H : Int)))
              (min w ((W : Int) - max 0 (min x (W : Int))))
              (min h ((H : Int) - max 0 (min y (H : Int)))) = (W, H)) := by
  intro s W H a b c d x y w h hW hH hpct hsplit ha hb hc hd
  have hfull : s ≠ "full" := by
    intro he
    subst he
    have hr : splitL ',' "full".data = [['f', 'u', 'l', 'l']] := rfl
    rw [hr] at hsplit
    simp at hsplit
  have hsq : s ≠ "square" := by
    intro he
    subst he
    have hr : splitL ',' "square".data = [['s', 'q', 'u', 'a', 'r', 'e']] := rfl
    rw [hr] at hsplit
    simp at hsplit
  constructor
  · unfold parse_region
    rw [if_neg hfull, if_neg hsq,
      if_neg (by rw [hpct]; exact Bool.false_ne_true)]
    unfold absRegion
    rw [hsplit]
    dsimp only
    rw [ha, hb, hc, hd]
  · intro hx
    have hminx : min x (W : Int) = (W : Int) := min_eq_right hx
    have hmaxx : max 0 ((W : Int)) = (W : Int) := max_eq_right (Int.natCast_nonneg W)
    rw [hminx, hmaxx, sub_self]
    have hw0 : min w (0 : Int) ≤ 0 := min_le_right w 0
    refine ⟨hw0, ?_⟩
    unfold cropDims
    rw [if_neg (fun hcon => absurd hcon.1 (not_lt.mpr hw0))]

/-- Witness for C5: the token `"200,0,-5,10"` on a 100 x 100 source has
`x = 200 >= 100`; the resulting width is `min(-5, 0) <= 0` and the pipeline
carries the 100 x 100 raster forward unchanged. -/
theorem claim5_witness :
    min (-5 : Int) ((100 : Int) - max 0 (min 200 (100 : Int))) ≤ 0
    ∧ cropDims 100 100 (max 0 (min 200 (100 : Int))) (max 0 (min 0 (100 : Int)))
        (min (-5) ((100 : Int) - max 0 (min 200 (100 : Int))))
        (min 10 ((100 : Int) - max 0 (min 0 (100 : Int)))) = (100, 100) :=
  (claim5_absolute_region_clamped "200,0,-5,10" 100 100
      ['2', '0', '0'] ['0'] ['-', '5'] ['1', '0'] 200 0 (-5) 10
      (by decide) (by decide) (by decide) (by decide)
      (by decide) (by decide) (by decide) (by decide)).2 (by decide)

/-- C7 counterexample: the claim says each `pct:` coordinate is
`floor(pctValue/100 * sourceDimension)`. Python `int()` truncates toward
zero instead: for `"pct:-10.5,0,50,50"` on a 100 x 100 source the code
yields `x = -10`, while the floor of `100 * (-10.5) / 100 = -10.5`
(computed below as `Int.fdiv` of the same exact fraction) is `-11`. -/
theorem claim7_cex_trunc_not_floor :
    parse_region "pct:-10.5,0,50,50" 100 100 = .ok (-10, 0, 50, 50)
    ∧ Int.fdiv ((100 : Int) * (-105)) (100 * 10) = -11
    ∧ ((-10 : Int) ≠ -11) :=
  ⟨rfl, by decide, by decide⟩

/-- C7, amended: for every `pct:`-prefixed region token with four
comma-separated decimal literals, each coordinate is the exact fraction
`sourceDimension * pctValue / 100` truncated toward zero (`pctScale`,
which agrees with floor for non-negative values), with no clamping to the
source bounds. -/
theorem claim7_pct_region_trunc :
    ∀ (s : String) (W H : Nat) (a b c d : List Char) (fa fb fc fd : PyF),
      0 < W → 0 < H →
      pyStartsWith "pct:" s = true →
      splitL ',' (s.data.drop 4) = [a, b, c, d] →
      pyFloatL a = some fa → pyFloatL b = some fb →
      pyFloatL c = some fc → pyFloatL d = some fd →
      parse_region s W H =
        .ok (pctScale W fa, pctScale H fb, pctScale W fc, pctScale H fd) := by
  intro s W H a b c d fa fb fc fd hW hH hpfx hsplit ha hb hc hd
  have hfull : s ≠ "full" := by
    intro he
    subst he
    exact absurd hpfx (by decide)
  have hsq : s ≠ "square" := by
    intro he
    subst he
    exact absurd hpfx (by decide)
  unfold parse_region
  rw [if_neg hfull, if_neg hsq, if_pos hpfx, hsplit]
  dsimp only
  rw [ha, hb, hc, hd]

/-- Witness for C7: `"pct:0,0,100,100"` on a 7 x 5 source yields the full
extent `(0, 0, 7, 5)` with no clamping needed. -/
theorem claim7_witness :
    parse_region "pct:0,0,100,100" 7 5 = .ok (0, 0, 7, 5) :=
  claim7_pct_region_trunc "pct:0,0,100,100" 7 5
    ['0'] ['0'] ['1', '0', '0'] ['1', '0', '0'] ⟨0, 0⟩ ⟨0, 0⟩ ⟨100, 0⟩ ⟨100, 0⟩
    (by decide) (by decide) (by decide) (by decide)
    (by decide) (by decide) (by decide) (by decide)
